import Mathlib

/-!
Verification of the `runsc mitigate` command (gVisor): a shallow embedding of
the command's engine (`doExecute`, `doMitigate`, `doReverse`, `doEnableDisable`,
`getCPUSet`, `Execute`) over an explicit file-system state and I/O-event trace,
together with a spec-modelled CPU-topology parser (`NewCPUSet`) and
vulnerability classifier (`IsVulnerable`) for the `mitigate` package, whose Go
source is not part of the visible slice.
-/

namespace Mitigation

/-- Path used to parse CPU info (constant `cpuInfo` in the Go source). -/
def cpuInfo : String := "/proc/cpuinfo"

/-- Path to shut down a CPU (constant `smtPath` in the Go source). -/
def smtPath : String := "/sys/devices/system/cpu/smt/control"

/-- One logical-processor record, as parsed from the raw description. -/
structure CPU where
  processorNumber : Nat
  vendorID : String
  familyNumber : Nat
  modelNumber : Nat
  modelName : String
  physicalID : Nat
  coreID : Nat
  bugs : List String
deriving DecidableEq, Repr

/-- A CPUSet is the ordered collection of parsed logical processors. -/
abbrev CPUSet := List CPU

/-- Modelled from the spec: the fixed list of cross-thread-exploitable bug
tags (the spec names microarchitectural data sampling and L1 terminal fault
as members; the concrete list lives in the `mitigate` package, outside the
visible slice). -/
def vulnerableBugs : List String := ["mds", "l1tf"]

/-- The package/core grouping key of a logical processor. -/
def coreKey (c : CPU) : Nat × Nat := (c.physicalID, c.coreID)

/-- Modelled from the spec: threads per core is the size of the largest
(package id, core id) group. -/
def threadsPerCore (cs : CPUSet) : Nat :=
  ((cs.map coreKey).eraseDups.map
    (fun k => (cs.filter (fun c => coreKey c = k)).length)).foldr Nat.max 0

/-- Modelled from the spec: a CPUSet is vulnerable when some processor carries
a cross-thread-exploitable bug tag and the topology has more than one thread
per core (the `mitigate` package's `IsVulnerable` is outside the visible
slice). -/
def CPUSet.IsVulnerable (cs : CPUSet) : Bool :=
  (cs.any fun c => c.bugs.any fun b => vulnerableBugs.contains b) &&
    decide (1 < threadsPerCore cs)

/-- Splits a character list at every occurrence of the separator. -/
def splitOnChar (sep : Char) : List Char → List (List Char)
  | [] => [[]]
  | c :: cs =>
      match splitOnChar sep cs with
      | [] => if c = sep then [[], []] else [[c]]
      | r :: rs => if c = sep then [] :: r :: rs else (c :: r) :: rs

/-- Removes leading and trailing whitespace from a character list. -/
def trimChars (cs : List Char) : List Char :=
  ((cs.dropWhile Char.isWhitespace).reverse.dropWhile Char.isWhitespace).reverse

/-- Splits a character list at its first occurrence of the separator. -/
def splitFirst (sep : Char) : List Char → Option (List Char × List Char)
  | [] => none
  | c :: cs =>
      if c = sep then some ([], cs)
      else
        match splitFirst sep cs with
        | none => none
        | some (a, b) => some (c :: a, b)

/-- Splits a line of the form `key<whitespace>: value` at its first colon and
returns the value when the key part matches. -/
def matchKey (key : String) (line : List Char) : Option (List Char) :=
  match splitFirst ':' line with
  | none => none
  | some (k, v) => if trimChars k = key.data then some (trimChars v) else none

/-- A line beginning a new logical-processor block. -/
def isProcessorLine (l : List Char) : Bool := (matchKey "processor" l).isSome

/-- Groups the input lines into per-processor blocks, each starting at a
`processor` line; text before the first such line is discarded. -/
def splitBlocksAux : List (List Char) → List (List (List Char)) × List (List Char)
  | [] => ([], [])
  | l :: ls =>
      let r := splitBlocksAux ls
      if isProcessorLine l then ((l :: r.2) :: r.1, []) else (r.1, l :: r.2)

/-- The per-processor blocks of the raw description. -/
def splitBlocks (lines : List (List Char)) : List (List (List Char)) :=
  (splitBlocksAux lines).1

/-- Whether the raw description contains at least one processor block. -/
def hasProcessorLine (data : String) : Bool :=
  !(splitBlocks (splitOnChar '\n' data.data)).isEmpty

/-- The parse failure message for a required key that could not be matched. -/
def keyError (key : String) (ls : List (List Char)) : String :=
  "failed to match key " ++ reprStr key ++ ": " ++
    reprStr (String.intercalate "\n" (ls.map String.mk))

/-- Scans forward for the first line matching the required key, skipping
unrecognized lines, and returns its value with the remaining lines. -/
def findKey (key : String) :
    List (List Char) → Option (List Char × List (List Char))
  | [] => none
  | l :: ls =>
      match matchKey key l with
      | some v => some (v, ls)
      | none => findKey key ls

/-- Requires the next key of the fixed required sequence to be present. -/
def need (key : String) (ls : List (List Char)) :
    Except String (List Char × List (List Char)) :=
  match findKey key ls with
  | none => .error (keyError key ls)
  | some r => .ok r

/-- Reads a nonempty all-digit character list as a decimal number. -/
def charsToNatAux : List Char → Nat → Option Nat
  | [], acc => some acc
  | c :: cs, acc =>
      if c.isDigit then charsToNatAux cs (acc * 10 + (c.toNat - 48)) else none

/-- Parses a decimal field value. -/
def parseNat (s : List Char) : Except String Nat :=
  match s with
  | [] => .error "failed to parse number: empty field"
  | _ =>
      match charsToNatAux s 0 with
      | none => .error ("failed to parse number: " ++ reprStr (String.mk s))
      | some n => .ok n

/-- Modelled from the spec: parses one processor block by consuming the
required keys in their fixed order, ignoring unrecognized lines. -/
def parseBlock (ls : List (List Char)) : Except String CPU := do
  let (v0, r1) ← need "processor" ls
  let n0 ← parseNat v0
  let (v1, r2) ← need "vendor_id" r1
  let (v2, r3) ← need "cpu family" r2
  let n2 ← parseNat v2
  let (v3, r4) ← need "model" r3
  let n3 ← parseNat v3
  let (v4, r5) ← need "model name" r4
  let (v5, r6) ← need "physical id" r5
  let n5 ← parseNat v5
  let (v6, r7) ← need "core id" r6
  let n6 ← parseNat v6
  let (v7, _) ← need "bugs" r7
  pure ⟨n0, String.mk v1, n2, n3, String.mk v4, n5, n6,
    (splitOnChar ' ' v7).map String.mk⟩

/-- Parses every block, failing on the first block that fails. -/
def parseBlocks : List (List (List Char)) → Except String (List CPU)
  | [] => .ok []
  | b :: bs =>
      match parseBlock b, parseBlocks bs with
      | .error e, _ => .error e
      | .ok _, .error e => .error e
      | .ok c, .ok cs => .ok (c :: cs)

/-- Modelled from the spec: `mitigate.NewCPUSet` (outside the visible slice)
parses the raw description into a CPUSet, failing with the "no cpus found"
condition naming the input when no processor block is present. -/
def NewCPUSet (data : String) : Except String CPUSet :=
  let blocks := splitBlocks (splitOnChar '\n' data.data)
  if blocks.isEmpty then .error ("no cpus found for: " ++ reprStr data)
  else parseBlocks blocks

/-- A file-system entry: permission mode and contents. -/
structure FSEntry where
  mode : Nat
  contents : String
deriving DecidableEq, Repr

/-- The file system as an association list from paths to entries. -/
abbrev FS := List (String × FSEntry)

/-- Looks a path up in the file system. -/
def fsLookup : FS → String → Option FSEntry
  | [], _ => none
  | (q, e) :: rest, p => if q = p then some e else fsLookup rest p

/-- Sets (or inserts) the entry of a path. -/
def fsSet : FS → String → FSEntry → FS
  | [], p, e => [(p, e)]
  | (q, e0) :: rest, p, e =>
      if q = p then (p, e) :: rest else (q, e0) :: fsSet rest p e

/-- An observable I/O event of one invocation. -/
inductive Event where
  | readFile (path : String)
  | openFile (path : String)
  | writeFile (path : String) (data : String)
  | postMitigate
deriving DecidableEq, Repr

/-- The ambient OS behavior: which reads, opens and writes fail, and with
what cause (open failures other than nonexistence, which the create flag
rules out). -/
structure IOEnv where
  readErr : String → Option String
  openErr : String → Option String
  writeErr : String → Option String

/-- The exit statuses of the subcommand. -/
inductive ExitStatus where
  | success
  | usageError
  | failure
deriving DecidableEq, Repr

/-- The observable outcome of an invocation: exit status, the fatal error
message when one was reported, the resulting file system and the I/O trace. -/
structure ExecResult where
  status : ExitStatus
  log : Option String
  fs : FS
  events : List Event
deriving DecidableEq, Repr

/-- The command's flags (the `Mitigate` struct of the Go source). -/
structure Mitigate where
  dryRun : Bool
  reverse : Bool
deriving DecidableEq, Repr

/-- The file system after the contents of a path are overwritten in place at
offset zero (no truncation), creating the file with mode 0644 when absent. -/
def writeResultFS (fs : FS) (filePath action : String) : FS :=
  let entry := (fsLookup fs filePath).getD ⟨0o644, ""⟩
  fsSet fs filePath ⟨entry.mode, action ++ entry.contents.drop action.length⟩

/-- Embedding of `doEnableDisable`: open with write and create flags at mode
0644, then write the action string; error messages interpolate the package
constant `smtPath`, exactly as the Go source does. -/
def doEnableDisable (env : IOEnv) (fs : FS) (filePath action : String) :
    Except String Unit × FS × List Event :=
  match env.openErr filePath with
  | some cause =>
      (.error ("failed to open file " ++ smtPath ++ ": " ++ cause), fs,
        [.openFile filePath])
  | none =>
      let entry := (fsLookup fs filePath).getD ⟨0o644, ""⟩
      match env.writeErr filePath with
      | some cause =>
          (.error ("failed to write \"" ++ action ++ "\" to " ++ smtPath ++
              ": " ++ cause),
            fsSet fs filePath entry,
            [.openFile filePath, .writeFile filePath action])
      | none =>
          (.ok (), writeResultFS fs filePath action,
            [.openFile filePath, .writeFile filePath action])

/-- Embedding of `doMitigate`: write "off" only when the before CPUSet is
vulnerable. -/
def doMitigate (env : IOEnv) (fs : FS) (filePath : String) (cpuSet : CPUSet) :
    Except String Unit × FS × List Event :=
  if !cpuSet.IsVulnerable then (.ok (), fs, [])
  else
    match doEnableDisable env fs filePath "off" with
    | (.error e, fs1, t) => (.error ("disable: " ++ e), fs1, t)
    | (.ok _, fs1, t) => (.ok (), fs1, t)

/-- Embedding of `doReverse`: unconditionally write "on". -/
def doReverse (env : IOEnv) (fs : FS) (filePath : String) (_ : CPUSet) :
    Except String Unit × FS × List Event :=
  match doEnableDisable env fs filePath "on" with
  | (.error e, fs1, t) => (.error ("enable: " ++ e), fs1, t)
  | (.ok _, fs1, t) => (.ok (), fs1, t)

/-- Embedding of `getCPUSet`: one read of the topology path, then parsing. -/
def getCPUSet (env : IOEnv) (fs : FS) (path : String) :
    Except String CPUSet × List Event :=
  match env.readErr path with
  | some cause =>
      (.error ("failed to read " ++ path ++ ": " ++ cause), [.readFile path])
  | none =>
      match fsLookup fs path with
      | none =>
          (.error ("failed to read " ++ path ++ ": no such file or directory"),
            [.readFile path])
      | some e => (NewCPUSet e.contents, [.readFile path])

/-- The action selection of `doExecute`: `doMitigate` by default, `doReverse`
under the reverse flag, and a no-op function under the dry-run flag. -/
def selectAction (m : Mitigate) (env : IOEnv) :
    FS → String → CPUSet → Except String Unit × FS × List Event :=
  let action := doMitigate env
  let action := if m.reverse then doReverse env else action
  if m.dryRun then (fun fs _ _ => (.ok (), fs, [])) else action

/-- The body of `doExecute` after action selection: parse the before CPUSet,
run the action, parse the after CPUSet, then the post-mitigate step. The
`post` parameter stands for `postMitigate`, which is outside the visible
slice. -/
def runEngine
    (action : FS → String → CPUSet → Except String Unit × FS × List Event)
    (post : CPUSet → Except String Unit) (env : IOEnv) (fs : FS)
    (cpuInfoPath smtFilePath : String) : ExecResult :=
  match getCPUSet env fs cpuInfoPath with
  | (.error e, t1) => ⟨.failure, some ("Get before CPUSet failed: " ++ e), fs, t1⟩
  | (.ok beforeSet, t1) =>
      match action fs smtFilePath beforeSet with
      | (.error e, fs2, t2) =>
          ⟨.failure, some ("Action failed: " ++ e), fs2, t1 ++ t2⟩
      | (.ok _, fs2, t2) =>
          match getCPUSet env fs2 cpuInfoPath with
          | (.error e, t3) =>
              ⟨.failure, some ("Get after CPUSet failed: " ++ e), fs2,
                t1 ++ t2 ++ t3⟩
          | (.ok afterSet, t3) =>
              match post afterSet with
              | .error e =>
                  ⟨.failure, some ("Post Mitigate failed: " ++ e), fs2,
                    t1 ++ t2 ++ t3 ++ [.postMitigate]⟩
              | .ok _ =>
                  ⟨.success, none, fs2, t1 ++ t2 ++ t3 ++ [.postMitigate]⟩

/-- Embedding of `Mitigate.doExecute`. -/
def doExecute (post : CPUSet → Except String Unit) (m : Mitigate)
    (env : IOEnv) (fs : FS) (cpuInfoPath smtFilePath : String) : ExecResult :=
  runEngine (selectAction m env) post env fs cpuInfoPath smtFilePath

/-- Embedding of `Mitigate.Execute`: the architecture gate, then the
argument-count gate, then `doExecute` on the fixed production paths. -/
def Execute (post : CPUSet → Except String Unit) (m : Mitigate)
    (goarch : String) (nargs : Nat) (env : IOEnv) (fs : FS) : ExecResult :=
  if goarch = "arm64" ∨ goarch = "arm" then
    ⟨.failure, some "As ARM is not affected by MDS, mitigate does not support",
      fs, []⟩
  else if nargs ≠ 0 then ⟨.usageError, none, fs, []⟩
  else doExecute post m env fs cpuInfo smtPath

/-- Modelled from the spec: the write step replaced by a no-op, as the spec
describes dry-run mode. -/
def noopWriteStep (fs : FS) (_ _ : String) :
    Except String Unit × FS × List Event :=
  (.ok (), fs, [])

/-- Modelled from the spec: the forward decision logic run unchanged with
only the write step a no-op. -/
def doMitigateSpecDry (fs : FS) (filePath : String) (cpuSet : CPUSet) :
    Except String Unit × FS × List Event :=
  if !cpuSet.IsVulnerable then (.ok (), fs, [])
  else
    match noopWriteStep fs filePath "off" with
    | (.error e, fs1, t) => (.error ("disable: " ++ e), fs1, t)
    | (.ok _, fs1, t) => (.ok (), fs1, t)

/-- Modelled from the spec: the reverse decision logic run unchanged with
only the write step a no-op. -/
def doReverseSpecDry (fs : FS) (filePath : String) (_ : CPUSet) :
    Except String Unit × FS × List Event :=
  match noopWriteStep fs filePath "on" with
  | (.error e, fs1, t) => (.error ("enable: " ++ e), fs1, t)
  | (.ok _, fs1, t) => (.ok (), fs1, t)

/-- Modelled from the spec: a dry run as the spec words it — the same engine
with the selected action's decision logic intact and the write step
substituted by a no-op. -/
def doExecuteSpecDry (post : CPUSet → Except String Unit) (reverse : Bool)
    (env : IOEnv) (fs : FS) (cpuInfoPath smtFilePath : String) : ExecResult :=
  runEngine (if reverse then doReverseSpecDry else doMitigateSpecDry) post env
    fs cpuInfoPath smtFilePath

/-- The write events of a trace. -/
def writesOf (t : List Event) : List Event :=
  t.filter fun ev =>
    match ev with
    | .writeFile _ _ => true
    | _ => false

/-- An OS environment in which every read, open and write succeeds. -/
def envOk : IOEnv := ⟨fun _ => none, fun _ => none, fun _ => none⟩

/-- A post-mitigate step that always succeeds. -/
def postOk : CPUSet → Except String Unit := fun _ => .ok ()

/-- A two-processor, one-core (two threads per core) vulnerable topology
description. -/
def cpuTextA : String :=
  "processor : 0\nvendor_id : v\ncpu family : 1\nmodel : 2\nmodel name : m\nphysical id : 0\ncore id : 0\nbugs : mds\n\nprocessor : 1\nvendor_id : v\ncpu family : 1\nmodel : 2\nmodel name : m\nphysical id : 0\ncore id : 0\nbugs : mds\n"

/-- The logical processors described by `cpuTextA`. -/
def csA : CPUSet :=
  [⟨0, "v", 1, 2, "m", 0, 0, ["mds"]⟩, ⟨1, "v", 1, 2, "m", 0, 0, ["mds"]⟩]

/-- A file system holding the vulnerable topology and the control surface. -/
def fsA : FS := [(cpuInfo, ⟨0o644, cpuTextA⟩), (smtPath, ⟨0o644, "on"⟩)]

/-- An OS environment in which writing the control surface fails. -/
def envW : IOEnv :=
  ⟨fun _ => none, fun _ => none,
    fun q => if q = smtPath then some "boom" else none⟩

/-- An OS environment denying the open of one temporary path. -/
def envDeny : IOEnv :=
  ⟨fun _ => none,
    fun q => if q = "/tmp/smt42" then some "permission denied" else none,
    fun _ => none⟩

/-- Setting a path makes it resolvable to the entry just written. -/
theorem fsSet_lookup (fs : FS) (p : String) (e : FSEntry) :
    fsLookup (fsSet fs p e) p = some e := by
  induction fs with
  | nil => simp [fsSet, fsLookup]
  | cons hd tl ih =>
      obtain ⟨q, e0⟩ := hd
      by_cases hq : q = p
      · simp [fsSet, fsLookup, hq]
      · simp [fsSet, fsLookup, hq, ih]

/-- Reading the topology always produces exactly one read event. -/
theorem getCPUSet_snd (env : IOEnv) (fs : FS) (p : String) :
    (getCPUSet env fs p).2 = [Event.readFile p] := by
  unfold getCPUSet
  cases env.readErr p
  · cases fsLookup fs p <;> rfl
  · rfl

/-- The control-surface writer emits only open and write events. -/
theorem doEnableDisable_events (env : IOEnv) (fs : FS) (p a : String) :
    ∀ ev ∈ (doEnableDisable env fs p a).2.2,
      ev ≠ Event.postMitigate ∧ ∀ q, ev ≠ Event.readFile q := by
  intro ev hev
  unfold doEnableDisable at hev
  cases ho : env.openErr p with
  | none =>
      rw [ho] at hev
      cases hw : env.writeErr p with
      | none =>
          rw [hw] at hev
          simp at hev
          rcases hev with h | h <;> subst h <;> exact ⟨by simp, fun q => by simp⟩
      | some c =>
          rw [hw] at hev
          simp at hev
          rcases hev with h | h <;> subst h <;> exact ⟨by simp, fun q => by simp⟩
  | some c =>
      rw [ho] at hev
      simp at hev
      subst hev
      exact ⟨by simp, fun q => by simp⟩

/-- The forward action emits only open and write events. -/
theorem doMitigate_events (env : IOEnv) (fs : FS) (p : String) (c : CPUSet) :
    ∀ ev ∈ (doMitigate env fs p c).2.2,
      ev ≠ Event.postMitigate ∧ ∀ q, ev ≠ Event.readFile q := by
  intro ev hev
  unfold doMitigate at hev
  cases h : c.IsVulnerable with
  | false => simp [h] at hev
  | true =>
      rw [h] at hev
      simp only [Bool.not_true, Bool.false_eq_true, if_false] at hev
      rcases hde : doEnableDisable env fs p "off" with ⟨r, fs1, t⟩
      rw [hde] at hev
      have hsub : ev ∈ (doEnableDisable env fs p "off").2.2 := by
        rw [hde]
        cases r <;> simpa using hev
      exact doEnableDisable_events env fs p "off" ev hsub

/-- The reverse action emits only open and write events. -/
theorem doReverse_events (env : IOEnv) (fs : FS) (p : String) (c : CPUSet) :
    ∀ ev ∈ (doReverse env fs p c).2.2,
      ev ≠ Event.postMitigate ∧ ∀ q, ev ≠ Event.readFile q := by
  intro ev hev
  unfold doReverse at hev
  rcases hde : doEnableDisable env fs p "on" with ⟨r, fs1, t⟩
  rw [hde] at hev
  have hsub : ev ∈ (doEnableDisable env fs p "on").2.2 := by
    rw [hde]
    cases r <;> simpa using hev
  exact doEnableDisable_events env fs p "on" ev hsub

/-- The selected action never reads the topology and never runs the
post-mitigate step. -/
theorem selectAction_events (m : Mitigate) (env : IOEnv) (fs : FS)
    (sp : String) (c : CPUSet) :
    ∀ ev ∈ (selectAction m env fs sp c).2.2,
      ev ≠ Event.postMitigate ∧ ∀ q, ev ≠ Event.readFile q := by
  intro ev hev
  unfold selectAction at hev
  cases hd : m.dryRun with
  | true =>
      rw [hd] at hev
      simp at hev
  | false =>
      rw [hd] at hev
      cases hr : m.reverse with
      | true =>
          rw [hr] at hev
          exact doReverse_events env fs sp c ev (by simpa using hev)
      | false =>
          rw [hr] at hev
          exact doMitigate_events env fs sp c ev (by simpa using hev)

/-- A successfully parsed block list is never empty. -/
theorem parseBlocks_cons_ne_nil (b : List (List Char))
    (bs : List (List (List Char))) (cs : List CPU)
    (h : parseBlocks (b :: bs) = .ok cs) : cs ≠ [] := by
  unfold parseBlocks at h
  cases hpb : parseBlock b <;> rw [hpb] at h
  · simp at h
  · cases hbs : parseBlocks bs <;> rw [hbs] at h
    · simp at h
    · simp at h
      rw [← h]
      simp

/-- Claim C1: when the OS imposes no failure on the control surface, the
forward action emits a write of the literal "off" if and only if the before
CPUSet is vulnerable, and on a non-vulnerable before CPUSet it succeeds,
changes nothing and performs no I/O at all, which makes a second invocation
on an already-mitigated host a successful no-op. -/
theorem claim1_mitigate_writes_iff_vulnerable (env : IOEnv) (fs : FS)
    (filePath : String) (cpuSet : CPUSet)
    (hopen : env.openErr filePath = none)
    (hwrite : env.writeErr filePath = none) :
    (Event.writeFile filePath "off" ∈ (doMitigate env fs filePath cpuSet).2.2 ↔
      cpuSet.IsVulnerable = true) ∧
    (cpuSet.IsVulnerable = false →
      doMitigate env fs filePath cpuSet = (.ok (), fs, [])) := by
  cases h : cpuSet.IsVulnerable with
  | false =>
      refine ⟨?_, fun _ => by simp [doMitigate, h]⟩
      simp [doMitigate, h]
  | true =>
      refine ⟨?_, fun hf => by simp [h] at hf⟩
      simp [doMitigate, doEnableDisable, h, hopen, hwrite]

/-- Witness for claim C1 at a concrete vulnerable CPUSet. -/
theorem claim1_witness :
    (Event.writeFile "/c" "off" ∈ (doMitigate envOk [] "/c" csA).2.2 ↔
      csA.IsVulnerable = true) ∧
    (csA.IsVulnerable = false → doMitigate envOk [] "/c" csA = (.ok (), [], [])) :=
  claim1_mitigate_writes_iff_vulnerable envOk [] "/c" csA rfl rfl

/-- Claim C2: the reverse action ignores the before CPUSet entirely and, when
the OS imposes no failure on the control surface, writes the literal "on" to
it for every before CPUSet. -/
theorem claim2_reverse_unconditional (env : IOEnv) (fs : FS)
    (filePath : String)
    (hopen : env.openErr filePath = none)
    (hwrite : env.writeErr filePath = none) :
    (∀ c cAlt : CPUSet,
      doReverse env fs filePath c = doReverse env fs filePath cAlt) ∧
    (∀ c : CPUSet, doReverse env fs filePath c =
      (.ok (), writeResultFS fs filePath "on",
        [Event.openFile filePath, Event.writeFile filePath "on"])) := by
  refine ⟨fun _ _ => rfl, fun c => ?_⟩
  simp [doReverse, doEnableDisable, writeResultFS, hopen, hwrite]

/-- Witness for claim C2 at a concrete file system. -/
theorem claim2_witness :
    (∀ c cAlt : CPUSet, doReverse envOk fsA smtPath c = doReverse envOk fsA smtPath cAlt) ∧
    (∀ c : CPUSet, doReverse envOk fsA smtPath c =
      (.ok (), writeResultFS fsA smtPath "on",
        [Event.openFile smtPath, Event.writeFile smtPath "on"])) :=
  claim2_reverse_unconditional envOk fsA smtPath rfl rfl

/-- Refutation of claim C4 as stated: the control surface is opened without
truncation, so writing "on" over previous contents "off" leaves the file
holding "onf", not exactly the action string. -/
theorem claim4_counterexample :
    (doEnableDisable envOk [("/t", ⟨0o644, "off"⟩)] "/t" "on").1 = .ok () ∧
    fsLookup (doEnableDisable envOk [("/t", ⟨0o644, "off"⟩)] "/t" "on").2.1 "/t" =
      some ⟨0o644, "onf"⟩ ∧
    ("onf" : String) ≠ "on" :=
  ⟨rfl, rfl, by decide⟩

/-- Claim C4 as amended: the write is a single create-or-open-and-write with
no truncation; after a successful write the file holds the action string
followed by whatever tail of the previous contents extended past it. -/
theorem claim4_amended_no_truncate (env : IOEnv) (fs : FS)
    (filePath action : String)
    (hopen : env.openErr filePath = none)
    (hwrite : env.writeErr filePath = none) :
    (doEnableDisable env fs filePath action).1 = .ok () ∧
    fsLookup (doEnableDisable env fs filePath action).2.1 filePath =
      some ⟨((fsLookup fs filePath).getD ⟨0o644, ""⟩).mode,
        action ++
          ((fsLookup fs filePath).getD ⟨0o644, ""⟩).contents.drop
            action.length⟩ := by
  constructor
  · simp [doEnableDisable, hopen, hwrite]
  · simp [doEnableDisable, writeResultFS, hopen, hwrite, fsSet_lookup]

/-- Witness for the amended claim C4 at a concrete file system. -/
theorem claim4_witness :
    (doEnableDisable envOk [("/t", ⟨0o644, "off"⟩)] "/t" "on").1 = .ok () ∧
    fsLookup (doEnableDisable envOk [("/t", ⟨0o644, "off"⟩)] "/t" "on").2.1 "/t" =
      some ⟨0o644, "on" ++ ("off" : String).drop 2⟩ :=
  claim4_amended_no_truncate envOk [("/t", ⟨0o644, "off"⟩)] "/t" "on" rfl rfl

/-- Claim C5, the code's actual behavior at the failing input: when opening a
path other than the production control surface fails, the error message names
the package constant path, not the path actually used for the write. -/
theorem claim5_error_names_constant_path :
    (doEnableDisable envDeny [] "/tmp/smt42" "off").1 =
      .error
        ("failed to open file /sys/devices/system/cpu/smt/control: permission denied") ∧
    ("/sys/devices/system/cpu/smt/control" : String) ≠ "/tmp/smt42" :=
  ⟨rfl, by decide⟩

/-- Claim C10: writing to a control-surface path absent from the file system
does not fail with an open error: the create flag makes the open create the
file with mode 0644 and the write then succeeds, leaving exactly the action
string. -/
theorem claim10_create_missing_file (env : IOEnv) (fs : FS)
    (path action : String)
    (hmiss : fsLookup fs path = none)
    (hopen : env.openErr path = none)
    (hwrite : env.writeErr path = none) :
    (doEnableDisable env fs path action).1 = .ok () ∧
    fsLookup (doEnableDisable env fs path action).2.1 path =
      some ⟨0o644, action⟩ := by
  constructor
  · simp [doEnableDisable, hopen, hwrite]
  · simp [doEnableDisable, writeResultFS, hopen, hwrite, hmiss, fsSet_lookup]

/-- Witness for claim C10 on an empty file system. -/
theorem claim10_witness :
    (doEnableDisable envOk [] "/missing" "on").1 = .ok () ∧
    fsLookup (doEnableDisable envOk [] "/missing" "on").2.1 "/missing" =
      some ⟨0o644, "on"⟩ :=
  claim10_create_missing_file envOk [] "/missing" "on" rfl rfl rfl

/-- Claim C3: a dry run produces, for every input topology, OS behavior and
post-mitigate step, exactly the same outcome (status, reported error, file
system and I/O trace) as the spec's description of dry-run — the run whose
selected action keeps its decision logic and replaces only the write step by
a no-op — so the decision is equivalent, only the write is suppressed, and
every error is detected identically. -/
theorem claim3_dryrun_refines_spec (post : CPUSet → Except String Unit)
    (r : Bool) (env : IOEnv) (fs : FS) (ci sp : String) :
    doExecute post ⟨true, r⟩ env fs ci sp =
      doExecuteSpecDry post r env fs ci sp := by
  unfold doExecute doExecuteSpecDry
  have ha : selectAction ⟨true, r⟩ env =
      (if r then doReverseSpecDry else doMitigateSpecDry) := by
    funext fs2 p c
    cases r with
    | false =>
        cases h : c.IsVulnerable <;>
          simp [selectAction, doMitigateSpecDry, noopWriteStep, h]
    | true => simp [selectAction, doReverseSpecDry, noopWriteStep]
  rw [ha]

/-- Claim C6: an input with no processor block (in particular the empty
input) fails with the "no cpus found" condition naming the input, and a
successful parse never yields a CPUSet with zero processors. -/
theorem claim6_no_cpus (data : String) :
    (hasProcessorLine data = false →
      NewCPUSet data = .error ("no cpus found for: " ++ reprStr data)) ∧
    (∀ cs : CPUSet, NewCPUSet data = .ok cs → cs ≠ []) := by
  constructor
  · intro h
    unfold hasProcessorLine at h
    simp at h
    simp [NewCPUSet, h]
  · intro cs hok
    unfold NewCPUSet at hok
    rcases hbl : splitBlocks (splitOnChar '\n' data.data) with _ | ⟨b, bs⟩
    · rw [hbl] at hok
      simp at hok
    · rw [hbl] at hok
      simp at hok
      exact parseBlocks_cons_ne_nil b bs cs hok

/-- Witness for claim C6 at the entirely unparsable input of the repository's
own test. -/
theorem claim6_witness :
    NewCPUSet "somethingNotCPU" =
      .error ("no cpus found for: " ++ reprStr "somethingNotCPU") :=
  (claim6_no_cpus "somethingNotCPU").1 (by decide)

/-- Refutation of claim C7 as stated: on an arm64 host an invocation with one
positional argument exits with plain failure, not the usage error status, and
performs no I/O. -/
theorem claim7_counterexample :
    (Execute postOk ⟨false, false⟩ "arm64" 1 envOk []).status =
      ExitStatus.failure ∧
    ExitStatus.failure ≠ ExitStatus.usageError ∧
    (Execute postOk ⟨false, false⟩ "arm64" 1 envOk []).events = [] :=
  ⟨rfl, by decide, rfl⟩

/-- Claim C7 as amended: on non-ARM architectures, any positional argument
makes the command exit with the distinct usage-error status without
attempting any I/O, and zero positional arguments make it proceed to the
mitigate/reverse operation on the production paths. -/
theorem claim7_amended_usage_gate (post : CPUSet → Except String Unit)
    (m : Mitigate) (env : IOEnv) (fs : FS) (goarch : String) (nargs : Nat)
    (h1 : goarch ≠ "arm64") (h2 : goarch ≠ "arm") :
    (nargs ≠ 0 →
      Execute post m goarch nargs env fs = ⟨.usageError, none, fs, []⟩) ∧
    (nargs = 0 →
      Execute post m goarch nargs env fs =
        doExecute post m env fs cpuInfo smtPath) ∧
    ExitStatus.usageError ≠ ExitStatus.success ∧
    ExitStatus.usageError ≠ ExitStatus.failure := by
  refine ⟨fun hn => ?_, fun hn => ?_, by decide, by decide⟩
  · simp [Execute, h1, h2, hn]
  · simp [Execute, h1, h2, hn]

/-- Witness for the amended claim C7 at a concrete amd64 invocation with one
positional argument. -/
theorem claim7_witness :
    Execute postOk ⟨false, false⟩ "amd64" 1 envOk [] =
      ⟨ExitStatus.usageError, none, [], []⟩ :=
  (claim7_amended_usage_gate postOk ⟨false, false⟩ envOk [] "amd64" 1
    (by decide) (by decide)).1 (by decide)

/-- Claim C8: with both the dry-run and the reverse flag set, the dry-run
no-op replaces the reverse action, so the action step succeeds without
touching the file system and the whole invocation performs no write. -/
theorem claim8_dryrun_overrides_reverse (post : CPUSet → Except String Unit)
    (env : IOEnv) (fs : FS) (ci sp : String) (c : CPUSet) :
    selectAction ⟨true, true⟩ env fs sp c = (.ok (), fs, []) ∧
    writesOf (doExecute post ⟨true, true⟩ env fs ci sp).events = [] := by
  refine ⟨rfl, ?_⟩
  unfold doExecute runEngine
  rcases hg1 : getCPUSet env fs ci with ⟨res1, t1⟩
  have ht1 : t1 = [Event.readFile ci] := by
    have h := getCPUSet_snd env fs ci
    rw [hg1] at h
    exact h
  subst ht1
  cases res1 with
  | error e => simp [writesOf]
  | ok beforeSet =>
      have hsel : selectAction ⟨true, true⟩ env fs sp beforeSet =
          (.ok (), fs, []) := rfl
      simp only [hsel, hg1]
      cases hp : post beforeSet <;> simp [writesOf, hp]

/-- Claim C9: once the before CPUSet has parsed, a failing action step makes
the invocation fail immediately — the after snapshot is never read (exactly
one read event, the before one) and the post-mitigate step never runs —
while a successful action step is followed by the after read and only then
the post-mitigate step, in that order. -/
theorem claim9_action_failure_aborts (post : CPUSet → Except String Unit)
    (m : Mitigate) (env : IOEnv) (fs : FS) (ci sp : String) (cs : CPUSet)
    (hb : (getCPUSet env fs ci).1 = Except.ok cs) :
    (∀ e fs2 t2, selectAction m env fs sp cs = (.error e, fs2, t2) →
      doExecute post m env fs ci sp =
        ⟨.failure, some ("Action failed: " ++ e), fs2,
          Event.readFile ci :: t2⟩ ∧
      Event.postMitigate ∉ Event.readFile ci :: t2 ∧
      (∀ q, Event.readFile q ∉ t2)) ∧
    (∀ fs2 t2, selectAction m env fs sp cs = (.ok (), fs2, t2) →
      ∃ rest, (doExecute post m env fs ci sp).events =
        Event.readFile ci :: (t2 ++ Event.readFile ci :: rest) ∧
        (rest = [] ∨ rest = [Event.postMitigate])) := by
  have hsnd := getCPUSet_snd env fs ci
  have hgc : getCPUSet env fs ci = (Except.ok cs, [Event.readFile ci]) := by
    rcases hx : getCPUSet env fs ci with ⟨r, t⟩
    rw [hx] at hb hsnd
    simp at hb hsnd
    rw [hb, hsnd]
  constructor
  · intro e fs2 t2 hact
    have hevents := selectAction_events m env fs sp cs
    rw [hact] at hevents
    refine ⟨?_, ?_, ?_⟩
    · unfold doExecute runEngine
      simp only [hgc, hact, List.cons_append, List.nil_append]
    · intro hmem
      rcases List.mem_cons.mp hmem with h | h
      · simp at h
      · exact (hevents Event.postMitigate h).1 rfl
    · intro q hmem
      exact (hevents (Event.readFile q) hmem).2 q rfl
  · intro fs2 t2 hact
    unfold doExecute runEngine
    simp only [hgc, hact]
    rcases hg2 : getCPUSet env fs2 ci with ⟨res2, t3⟩
    have ht3 : t3 = [Event.readFile ci] := by
      have h := getCPUSet_snd env fs2 ci
      rw [hg2] at h
      exact h
    subst ht3
    cases res2 with
    | error e2 => exact ⟨[], by simp, Or.inl rfl⟩
    | ok afterSet =>
        cases hp : post afterSet with
        | error e3 => exact ⟨[Event.postMitigate], by simp [hp], Or.inr rfl⟩
        | ok u => exact ⟨[Event.postMitigate], by simp [hp], Or.inr rfl⟩

set_option maxRecDepth 10000 in
/-- Witness for claim C9: a concrete vulnerable host whose control-surface
write fails; the invocation stops right after the failed action, with no
second read and no post-mitigate step. -/
theorem claim9_witness :
    doExecute postOk ⟨false, false⟩ envW fsA cpuInfo smtPath =
      ⟨ExitStatus.failure,
        some ("Action failed: disable: failed to write \"off\" to " ++
          smtPath ++ ": boom"),
        fsA,
        [Event.readFile cpuInfo, Event.openFile smtPath,
          Event.writeFile smtPath "off"]⟩ :=
  ((claim9_action_failure_aborts postOk ⟨false, false⟩ envW fsA cpuInfo smtPath
      csA rfl).1 _ _ _ rfl).1

end Mitigation
